import Mathlib

/-!
Verification of the weekly-recurrence scheduling and persistence logic of the
Telegram Google Meet bot (src/bot.py).

The embedding models:
* schedule entries and the chat → entries store (Python dict `scheduled_meets`),
* the persistence layer `load_schedules` / `save_schedules` (JSON file, string
  keys converted back to integer chat ids),
* the recurrence computation inside `create_job_for_schedule`,
* the add and delete operations (`process_schedule_add`, `add_schedule_direct`,
  `process_schedule_delete`, `delete_schedule_direct`),
* the full reload `setup_schedules` and the retrying trigger callback
  `send_meet_link`.

Time is modelled as seconds of Moscow local time counted from a reference
Monday 00:00:00 (Europe/Moscow has a fixed UTC offset, so local-time arithmetic
and instants coincide up to a constant shift; the final `.astimezone(pytz.UTC)`
in the source maps an instant to the same instant).
-/

namespace Bot

/-- A schedule entry as stored in `scheduled_meets`: the Python dict
`{"day": d, "hours": h, "minutes": m}` with an optional `"thread_id"` key
(bot.py lines 224-233). -/
structure Entry where
  day : Int
  hours : Int
  minutes : Int
  thread_id : Option Int := none
deriving DecidableEq, Repr

/-- The schedule store `scheduled_meets`: a Python dict from chat id to a list
of entries, modelled as an association list in insertion order (Python dicts
preserve insertion order; keys are unique in any dict Python builds). -/
abbrev Store := List (Int × List Entry)

/-- `scheduled_meets.get(chat)` lookup (`None` when the key is absent). -/
def dictGet : Store → Int → Option (List Entry)
  | [], _ => none
  | kv :: rest, k => if kv.1 = k then some kv.2 else dictGet rest k

/-- `scheduled_meets[chat] = v`: replace the value of an existing key in
place, or append a new key at the end (Python dict insertion order). -/
def dictSet : Store → Int → List Entry → Store
  | [], k, v => [(k, v)]
  | kv :: rest, k, v =>
    if kv.1 = k then (k, v) :: rest else kv :: dictSet rest k v

theorem dictGet_dictSet_self (st : Store) (k : Int) (v : List Entry) :
    dictGet (dictSet st k v) k = some v := by
  induction st with
  | nil => simp [dictGet, dictSet]
  | cons kv rest ih =>
    by_cases h : kv.1 = k
    · simp [dictGet, dictSet, h]
    · simp [dictGet, dictSet, h, ih]

theorem dictGet_dictSet_ne (st : Store) (k k2 : Int) (v : List Entry)
    (h : k ≠ k2) : dictGet (dictSet st k v) k2 = dictGet st k2 := by
  induction st with
  | nil => simp [dictGet, dictSet, h]
  | cons kv rest ih =>
    by_cases hk : kv.1 = k
    · simp [dictGet, dictSet, hk, h, hk ▸ h]
    · by_cases hk2 : kv.1 = k2 <;> simp [dictGet, dictSet, hk, hk2, ih, Ne.symm h]

theorem dictSet_eq_self (st : Store) (k : Int) (v : List Entry)
    (h : dictGet st k = some v) : dictSet st k v = st := by
  induction st with
  | nil => simp [dictGet] at h
  | cons kv rest ih =>
    by_cases hk : kv.1 = k
    · simp only [dictGet, hk, if_pos, Option.some.injEq] at h
      obtain ⟨k1, v1⟩ := kv
      simp_all [dictSet]
    · simp only [dictGet, hk, if_neg, if_false] at h
      simp [dictSet, hk, ih h]

/-! ### Decimal strings: models of Python `str(i)` and `int(s)`

`save_schedules` serializes the dict, turning integer chat ids into decimal
JSON keys; `load_schedules` converts them back with `int(k)`
(bot.py lines 73-86). -/

/-- The character for a single decimal digit (0-9). -/
def digitChar : Nat → Char
  | 0 => '0' | 1 => '1' | 2 => '2' | 3 => '3' | 4 => '4'
  | 5 => '5' | 6 => '6' | 7 => '7' | 8 => '8' | 9 => '9'
  | _ => '*'

/-- Inverse of `digitChar` on decimal digit characters (code points 48-57). -/
def charDigit? (c : Char) : Option Nat :=
  if 48 ≤ c.toNat && c.toNat ≤ 57 then some (c.toNat - 48) else none

/-- Little-endian decimal digits of `n`, with enough fuel (structural
recursion, so that serialized stores evaluate inside the kernel). -/
def natDigitsRev : Nat → Nat → List Nat
  | 0, _ => []
  | fuel + 1, n => if n = 0 then [] else n % 10 :: natDigitsRev fuel (n / 10)

/-- Python `str(n)` for a natural number: most-significant digit first. -/
def natToChars (n : Nat) : List Char :=
  if n = 0 then ['0'] else (natDigitsRev n n).reverse.map digitChar

/-- Value of a most-significant-first digit list. -/
def digitsVal (l : List Nat) : Nat :=
  l.foldl (fun a d => 10 * a + d) 0

/-- Read every character as a decimal digit, failing on the first
non-digit. -/
def readDigits : List Char → Option (List Nat)
  | [] => some []
  | c :: rest =>
    match charDigit? c, readDigits rest with
    | some d, some ds => some (d :: ds)
    | _, _ => none

/-- Parse a non-empty all-digit character list as a natural number
(the digit-string core of Python `int`). -/
def parseNat? (l : List Char) : Option Nat :=
  match l with
  | [] => none
  | _ :: _ => (readDigits l).map digitsVal

/-- Python whitespace stripped by `int` / `str.strip` (main cases). -/
def isSpaceChar (c : Char) : Bool :=
  c = ' ' || c = '\t' || c = '\n' || c = '\r'

/-- `str.strip()` on a character list. -/
def stripChars (l : List Char) : List Char :=
  ((l.dropWhile isSpaceChar).reverse.dropWhile isSpaceChar).reverse

/-- Python `str(i)` for an integer. -/
def intToChars (i : Int) : List Char :=
  if i < 0 then '-' :: natToChars i.natAbs else natToChars i.toNat

/-- Python `int(s)` on decimal strings: optional surrounding whitespace, an
optional sign, then decimal digits.  (Exotic accepted forms such as
underscore digit grouping or non-ASCII digits are not modelled.) -/
def pyInt? (l : List Char) : Option Int :=
  match stripChars l with
  | [] => none
  | c :: rest =>
    if c = '-' then (parseNat? rest).map (fun n => -(n : Int))
    else if c = '+' then (parseNat? rest).map (fun n => (n : Int))
    else (parseNat? (c :: rest)).map (fun n => (n : Int))

theorem natDigitsRev_eq_digits (fuel n : Nat) (h : n ≤ fuel) :
    natDigitsRev fuel n = Nat.digits 10 n := by
  induction fuel generalizing n with
  | zero =>
    have : n = 0 := Nat.le_zero.mp h
    simp [this, natDigitsRev]
  | succ f ih =>
    by_cases hn : n = 0
    · simp [hn, natDigitsRev]
    · have hrec : natDigitsRev f (n / 10) = Nat.digits 10 (n / 10) := by
        apply ih
        have hlt : n / 10 < n := Nat.div_lt_self (Nat.pos_of_ne_zero hn) (by norm_num)
        omega
      rw [natDigitsRev, if_neg hn, hrec,
        Nat.digits_def' (b := 10) (by norm_num) (Nat.pos_of_ne_zero hn)]

theorem natToChars_eq_digits (n : Nat) :
    natToChars n =
      if n = 0 then ['0'] else (Nat.digits 10 n).reverse.map digitChar := by
  unfold natToChars
  rw [natDigitsRev_eq_digits n n le_rfl]

theorem charDigit_digitChar {d : Nat} (hd : d < 10) :
    charDigit? (digitChar d) = some d := by
  interval_cases d <;> rfl

theorem digitChar_not_special (d : Nat) :
    isSpaceChar (digitChar d) = false ∧ digitChar d ≠ '-' ∧ digitChar d ≠ '+' := by
  unfold digitChar
  split <;> exact ⟨by decide, by decide, by decide⟩

theorem readDigits_map_digitChar (L : List Nat) (hL : ∀ d ∈ L, d < 10) :
    readDigits (L.map digitChar) = some L := by
  induction L with
  | nil => rfl
  | cons d L ih =>
    have hd : d < 10 := hL d (by simp)
    have hrest := ih (fun x hx => hL x (by simp [hx]))
    simp [readDigits, charDigit_digitChar hd, hrest]

theorem foldl_reverse_ofDigits (L : List Nat) (acc : Nat) :
    (L.reverse).foldl (fun a d => 10 * a + d) acc =
      acc * 10 ^ L.length + Nat.ofDigits 10 L := by
  induction L generalizing acc with
  | nil => simp [Nat.ofDigits_nil]
  | cons d L ih =>
    simp only [List.reverse_cons, List.foldl_append, List.foldl_cons,
      List.foldl_nil, ih, Nat.ofDigits_cons, List.length_cons]
    ring

theorem digitsVal_reverse_digits (n : Nat) :
    digitsVal ((Nat.digits 10 n).reverse) = n := by
  have h := foldl_reverse_ofDigits (Nat.digits 10 n) 0
  simpa [digitsVal, Nat.ofDigits_digits] using h

theorem dropWhile_eq_self_of_not {p : Char → Bool} {l : List Char}
    (h : ∀ c ∈ l, p c = false) : l.dropWhile p = l := by
  cases l with
  | nil => rfl
  | cons c rest => simp [List.dropWhile_cons, h c (by simp)]

theorem stripChars_eq_self {l : List Char}
    (h : ∀ c ∈ l, isSpaceChar c = false) : stripChars l = l := by
  unfold stripChars
  rw [dropWhile_eq_self_of_not h,
    dropWhile_eq_self_of_not (by intro c hc; exact h c (List.mem_reverse.mp hc)),
    List.reverse_reverse]

theorem natToChars_all_digits (n : Nat) :
    ∀ c ∈ natToChars n, ∃ d, d < 10 ∧ c = digitChar d := by
  intro c hc
  rw [natToChars_eq_digits] at hc
  by_cases hn : n = 0
  · simp [hn] at hc
    exact ⟨0, by norm_num, by simp [hc, digitChar]⟩
  · simp only [hn, if_false, List.mem_map, List.mem_reverse] at hc
    obtain ⟨d, hd, rfl⟩ := hc
    exact ⟨d, Nat.digits_lt_base (by norm_num) hd, rfl⟩

theorem parseNat_natToChars (n : Nat) : parseNat? (natToChars n) = some n := by
  by_cases hn : n = 0
  · subst hn; rfl
  · have hne : Nat.digits 10 n ≠ [] := Nat.digits_ne_nil_iff_ne_zero.mpr hn
    have hlt : ∀ d ∈ (Nat.digits 10 n).reverse, d < 10 := by
      intro d hd
      exact Nat.digits_lt_base (by norm_num) (List.mem_reverse.mp hd)
    have hchars : natToChars n = (Nat.digits 10 n).reverse.map digitChar := by
      simp [natToChars_eq_digits, hn]
    have hread : readDigits (natToChars n) = some ((Nat.digits 10 n).reverse) := by
      rw [hchars]; exact readDigits_map_digitChar _ hlt
    have hnil : natToChars n ≠ [] := by
      rw [hchars]; simp [hne]
    cases hme : natToChars n with
    | nil => exact absurd hme hnil
    | cons c cs =>
      show (readDigits (c :: cs)).map digitsVal = some n
      rw [← hme, hread]
      simp [digitsVal_reverse_digits n]

theorem pyInt_intToChars (i : Int) : pyInt? (intToChars i) = some i := by
  have hstrip : stripChars (intToChars i) = intToChars i := by
    apply stripChars_eq_self
    intro c hc
    unfold intToChars at hc
    by_cases hi : i < 0
    · simp only [hi, if_pos, List.mem_cons] at hc
      rcases hc with rfl | hc
      · decide
      · obtain ⟨d, _, rfl⟩ := natToChars_all_digits _ c hc
        exact (digitChar_not_special d).1
    · simp only [hi, if_neg, if_false] at hc
      obtain ⟨d, _, rfl⟩ := natToChars_all_digits _ c hc
      exact (digitChar_not_special d).1
  have hnil : ∀ m : Nat, natToChars m ≠ [] := by
    intro m hm
    rw [natToChars_eq_digits] at hm
    by_cases h0 : m = 0
    · simp [h0] at hm
    · have hne : Nat.digits 10 m ≠ [] := Nat.digits_ne_nil_iff_ne_zero.mpr h0
      simp only [h0, if_false, List.map_eq_nil_iff, List.reverse_eq_nil_iff] at hm
      exact hne hm
  by_cases hi : i < 0
  · have hchars : intToChars i = '-' :: natToChars i.natAbs := by
      simp [intToChars, hi]
    have hval : -((i.natAbs : Nat) : Int) = i := by omega
    rw [pyInt?.eq_def, hstrip, hchars]
    simp [parseNat_natToChars, abs_of_neg hi]
  · have hchars : intToChars i = natToChars i.toNat := by
      simp [intToChars, hi]
    have hval : ((i.toNat : Nat) : Int) = i := by omega
    rw [pyInt?.eq_def, hstrip, hchars]
    cases hme : natToChars i.toNat with
    | nil => exact absurd hme (hnil _)
    | cons c cs =>
      have hc : c ∈ natToChars i.toNat := by simp [hme]
      obtain ⟨d, _, hcd⟩ := natToChars_all_digits _ c hc
      have hc1 : c ≠ '-' := hcd ▸ (digitChar_not_special d).2.1
      have hc2 : c ≠ '+' := hcd ▸ (digitChar_not_special d).2.2
      simp [hc1, hc2, ← hme, parseNat_natToChars, hval]

/-! ### Command-text parsing (bot.py lines 187-207)

`process_schedule_add` receives `text = update.message.text.strip().lower()`;
the model takes the already stripped and lowercased text. -/

/-- Python `text.split(' ', 1)`: split at the first separator only.  `none`
models the single-element result whose 2-tuple unpacking raises
`ValueError`. -/
def splitFirst (sep : Char) : List Char → Option (List Char × List Char)
  | [] => none
  | c :: rest =>
    if c = sep then some ([], rest)
    else (splitFirst sep rest).map (fun p => (c :: p.1, p.2))

/-- Python `text.split(sep)` with a one-character separator. -/
def splitAll (sep : Char) : List Char → List (List Char)
  | [] => [[]]
  | c :: rest =>
    if c = sep then [] :: splitAll sep rest
    else
      match splitAll sep rest with
      | [] => [[c]]
      | p :: ps => (c :: p) :: ps

/-- The `DAYS_RU` table: Russian day names to 0=Monday..6=Sunday
(bot.py lines 47-55). -/
def DAYS_RU : List (String × Int) :=
  [("понедельник", 0), ("вторник", 1), ("среда", 2), ("четверг", 3),
   ("пятница", 4), ("суббота", 5), ("воскресенье", 6)]

/-- `DAYS_RU[day_text]` lookup. -/
def lookup_day (s : List Char) : Option Int :=
  (DAYS_RU.find? (fun p => p.1.data == s)).map (fun p => p.2)

/-- Outcome reported back to the user by the add handler. -/
inductive AddOutcome where
  | badDay
  | badTime
  | duplicate
  | added
  | genericError
deriving DecidableEq, Repr

/-- The validation steps of `process_schedule_add` (bot.py lines 190-207):
split off the day word, look it up in `DAYS_RU`, split the time on a colon
into exactly two `int()` fields, and range-check hour and minute.  Failures
map to the reply the handler sends: `badDay` and `badTime` are the
validation messages, `genericError` the outer catch-all (raised e.g. by the
2-tuple unpacking when the text has no space). -/
def parse_day_time (text : List Char) : Except AddOutcome (Int × Int × Int) :=
  match splitFirst ' ' text with
  | none => .error .genericError
  | some (dayText, timeText) =>
    match lookup_day dayText with
    | none => .error .badDay
    | some d =>
      match splitAll ':' timeText with
      | [hs, ms] =>
        match pyInt? hs, pyInt? ms with
        | some h, some m =>
          if 0 ≤ h ∧ h < 24 ∧ 0 ≤ m ∧ m < 60 then .ok (d, h, m)
          else .error .badTime
        | _, _ => .error .badTime
      | _ => .error .badTime

/-! ### Persistence (bot.py lines 73-86)

The JSON text layer belongs to the Python `json` library; the file is modelled
as either absent, present-but-unparseable, or a parsed JSON document. -/

/-- A JSON document as produced by `json.load`. -/
inductive Json where
  | obj (kvs : List (String × Json))
  | arr (xs : List Json)
  | num (n : Int)
  | str (s : String)
  | bool (b : Bool)
  | null

/-- State of the persistence file `scheduled_meets.json`. -/
inductive FileState where
  | absent
  | corrupt
  | content (j : Json)

/-- A JSON number read back as a Python int. -/
def as_int : Json → Option Int
  | .num n => some n
  | _ => none

/-- Field access on a decoded JSON object. -/
def jfield (fields : List (String × Json)) (k : String) : Option Json :=
  (fields.find? (fun p => p.1 == k)).map (fun p => p.2)

/-- Read one serialized schedule entry back into its typed form (the dict
`{"day": .., "hours": .., "minutes": ..}` with optional `"thread_id"`;
Python keeps the decoded dicts as-is and indexes these keys at use sites). -/
def decode_entry : Json → Option Entry
  | .obj fs => do
    let d ← (jfield fs "day").bind as_int
    let h ← (jfield fs "hours").bind as_int
    let m ← (jfield fs "minutes").bind as_int
    pure ⟨d, h, m, (jfield fs "thread_id").bind as_int⟩
  | _ => none

/-- Read a serialized entry list. -/
def decode_entries : Json → Option (List Entry)
  | .arr es => go es
  | _ => none
where
  go : List Json → Option (List Entry)
    | [] => some []
    | j :: rest =>
      match decode_entry j, go rest with
      | some e, some l => some (e :: l)
      | _, _ => none

/-- The dict comprehension `{int(k): v for k, v in data.items()}`: convert
every string key back to an integer chat id (bot.py line 79). -/
def decode_store : Json → Option Store
  | .obj fields => go fields
  | _ => none
where
  go : List (String × Json) → Option Store
    | [] => some []
    | kv :: rest =>
      match pyInt? kv.1.data, decode_entries kv.2, go rest with
      | some k, some es, some st => some ((k, es) :: st)
      | _, _, _ => none

/-- `load_schedules` (bot.py lines 73-81): a missing file yields the empty
store; `json.load` on an unreadable file raises (there is no try/except), as
does the key conversion on ill-formed content. -/
def load_schedules : FileState → Except Unit Store
  | .absent => .ok []
  | .corrupt => .error ()
  | .content j =>
    match decode_store j with
    | some st => .ok st
    | none => .error ()

/-- Serialize one entry the way `json.dump` writes the Python dict (keys in
insertion order: day, hours, minutes, then thread_id when present). -/
def encode_entry (e : Entry) : Json :=
  .obj ([("day", .num e.day), ("hours", .num e.hours),
    ("minutes", .num e.minutes)] ++
    (match e.thread_id with
     | some t => [("thread_id", .num t)]
     | none => []))

/-- Serialize the store: integer chat ids become decimal string keys. -/
def encode_store (st : Store) : Json :=
  .obj (st.map (fun kv =>
    (String.mk (intToChars kv.1), .arr (kv.2.map encode_entry))))

/-- `save_schedules` (bot.py lines 83-86): overwrite the file with the JSON
serialization of the store. -/
def save_schedules (st : Store) : FileState :=
  .content (encode_store st)

theorem decode_entry_encode_entry (e : Entry) :
    decode_entry (encode_entry e) = some e := by
  obtain ⟨d, h, m, t⟩ := e
  cases t <;> rfl

theorem decode_entries_encode (l : List Entry) :
    decode_entries (.arr (l.map encode_entry)) = some l := by
  show decode_entries.go (l.map encode_entry) = some l
  induction l with
  | nil => rfl
  | cons e l ih => simp [decode_entries.go, decode_entry_encode_entry, ih]

theorem decode_store_encode_store (st : Store) :
    decode_store (encode_store st) = some st := by
  show decode_store.go (st.map _) = some st
  induction st with
  | nil => rfl
  | cons kv rest ih =>
    have hk : pyInt? (String.mk (intToChars kv.1)).data = some kv.1 := by
      show pyInt? (intToChars kv.1) = some kv.1
      exact pyInt_intToChars kv.1
    simp [decode_store.go, hk, decode_entries_encode, ih]

/-! ### Recurrence calculation and jobs (bot.py lines 503-546) -/

/-- The first-run instant computed by `create_job_for_schedule`
(bot.py lines 508-524), in Moscow-local seconds from a reference Monday
00:00:00.  Mirrors the source: `days_ahead = (target_day - current_day) % 7`;
if `days_ahead == 0` and the target time today is strictly in the past, use 7;
the target date keeps the time-of-day date (`replace(hour, minute, 0, 0)`
equals the start of that day plus the requested time), and one minute is
subtracted at the end (`- datetime.timedelta(minutes=1)`). -/
def next_fire (now : Nat) (day hours minutes : Int) : Int :=
  let current_day : Int := ((now / 86400) % 7 : Nat)
  let days_ahead0 : Int := (day - current_day) % 7
  let sod : Int := (now % 86400 : Nat)
  let target_today : Int := (now : Int) - sod + (hours * 3600 + minutes * 60)
  let days_ahead : Int :=
    if days_ahead0 = 0 ∧ target_today < (now : Int) then 7 else days_ahead0
  ((now : Int) - sod) + days_ahead * 86400 + (hours * 3600 + minutes * 60) - 60

/-- The `job.context` dict attached to every weekly job
(bot.py lines 526-535). -/
structure JobCtx where
  user_id : Int
  day : Int
  hours : Int
  minutes : Int
  thread_id : Option Int := none
deriving DecidableEq, Repr

/-- A job armed on the job queue by `job_queue.run_repeating`: its context,
first-run instant and weekly repetition interval (bot.py lines 538-543). -/
structure Job where
  ctx : JobCtx
  first : Int
  interval : Int := 604800
deriving DecidableEq, Repr

/-- `create_job_for_schedule` (bot.py lines 503-546): build the weekly job
for one schedule entry, first run at `next_fire`. -/
def create_job_for_schedule (now : Nat) (user_id : Int)
    (day hours minutes : Int) (thread_id : Option Int) : Job :=
  ⟨⟨user_id, day, hours, minutes, thread_id⟩,
    next_fire now day hours minutes, 604800⟩

/-- One job per entry of the store, in store order
(bot.py lines 559-575). -/
def arm_all (st : Store) (now : Nat) : List Job :=
  (st.map (fun kv =>
    kv.2.map (fun e =>
      create_job_for_schedule now kv.1 e.day e.hours e.minutes e.thread_id))).flatten

/-- `setup_schedules` (bot.py lines 548-577): remove every job from the
queue, reload the store from the persistence file, and arm one job per
entry.  A load failure propagates (the jobs were already cleared). -/
def setup_schedules (file : FileState) (jobs : List Job) (now : Nat) :
    Except Unit (List Job) :=
  let cleared := jobs.filter (fun _ => false)
  match load_schedules file with
  | .error e => .error e
  | .ok st => .ok (cleared ++ arm_all st now)

/-! ### Schedule registry operations -/

/-- Shared store logic of `process_schedule_add` (bot.py lines 209-238) and
`add_schedule_direct` (bot.py lines 921-947): reject when an entry with the
same day, hours and minutes already exists for the chat (`thread_id` is not
compared), otherwise append the entry (tagged with the request thread) and
persist.  The result is the persisted store; on the duplicate path
`save_schedules` is not called, so the persisted store is unchanged. -/
def add_schedule_core (st : Store) (chat : Int) (day hours minutes : Int)
    (thread_id : Option Int) : Store × Bool :=
  let lst := (dictGet st chat).getD []
  if lst.any (fun e => e.day == day && e.hours == hours && e.minutes == minutes)
  then (st, false)
  else (dictSet st chat (lst ++ [⟨day, hours, minutes, thread_id⟩]), true)

/-- `process_schedule_add` (bot.py lines 173-266) after
`text.strip().lower()`: validate, then add and arm a job for the new entry.
Returns the persisted store, the job queue and the reply outcome. -/
def process_schedule_add (text : List Char) (chat : Int)
    (thread_id : Option Int) (st : Store) (jobs : List Job) (now : Nat) :
    Store × List Job × AddOutcome :=
  match parse_day_time text with
  | .error e => (st, jobs, e)
  | .ok (d, h, m) =>
    match add_schedule_core st chat d h m thread_id with
    | (st2, true) =>
      (st2, jobs ++ [create_job_for_schedule now chat d h m thread_id], .added)
    | (st2, false) => (st2, jobs, .duplicate)

/-- `process_schedule_delete` store-and-queue logic (bot.py lines 376-409):
when the chat has entries, keep only those not matching on day, hours and
minutes (the thread of the request is not consulted), persist, and remove every
job whose context matches; `deleted` records whether anything matched.  When
the chat is absent nothing is touched. -/
def process_schedule_delete (st : Store) (jobs : List Job) (chat : Int)
    (day hours minutes : Int) : Store × List Job × Bool :=
  match dictGet st chat with
  | none => (st, jobs, false)
  | some lst =>
    let isMatch := fun (e : Entry) =>
      e.day == day && e.hours == hours && e.minutes == minutes
    (dictSet st chat (lst.filter (fun e => !isMatch e)),
     jobs.filter (fun j =>
       !(j.ctx.user_id == chat && j.ctx.day == day &&
         j.ctx.hours == hours && j.ctx.minutes == minutes)),
     lst.any isMatch)

/-- `delete_schedule_direct` store-and-queue logic (bot.py lines 1046-1074):
like `process_schedule_delete` but the match also compares
`schedule_item.get("thread_id")` with the thread of the request. -/
def delete_schedule_direct (st : Store) (jobs : List Job) (chat : Int)
    (day hours minutes : Int) (thread_id : Option Int) :
    Store × List Job × Bool :=
  match dictGet st chat with
  | none => (st, jobs, false)
  | some lst =>
    let isMatch := fun (e : Entry) =>
      e.day == day && e.hours == hours && e.minutes == minutes &&
        e.thread_id == thread_id
    (dictSet st chat (lst.filter (fun e => !isMatch e)),
     jobs.filter (fun j =>
       !(j.ctx.user_id == chat && j.ctx.day == day &&
         j.ctx.hours == hours && j.ctx.minutes == minutes &&
         j.ctx.thread_id == thread_id)),
     lst.any isMatch)

/-! ### The trigger callback `send_meet_link` (bot.py lines 432-501) -/

/-- Observable behaviour of one `send_meet_link` invocation. -/
structure SendTrace where
  attempts : Nat
  sleeps : Nat
  linkSent : Bool
  errorAttempted : Bool
  errorDelivered : Bool
deriving DecidableEq, Repr

/-- The `for attempt in range(3)` retry loop (bot.py lines 443-484):
`send a` tells whether the message send of attempt `a` succeeds.  On success
the loop breaks; otherwise it sleeps 2 seconds and retries, and the last
attempt re-raises.  Returns (attempts made, sleeps taken); `error` is the
re-raised exception. -/
def retry_loop (send : Nat → Bool) : List Nat → Except (Nat × Nat) (Nat × Nat)
  | [] => .error (0, 0)
  | a :: rest =>
    if send a then .ok (1, 0)
    else
      match rest with
      | [] => .error (1, 0)
      | _ :: _ =>
        match retry_loop send rest with
        | .ok (n, s) => .ok (n + 1, s + 1)
        | .error (n, s) => .error (n + 1, s + 1)

/-- `send_meet_link` (bot.py lines 432-501): retry loop inside the outer
try/except; on total failure the handler sends a user-visible error message,
itself wrapped in a try/except that only logs, so no exception leaves the
callback (the weekly job stays on the queue). -/
def send_meet_link (send : Nat → Bool) (errSend : Bool) :
    Except Unit SendTrace :=
  match retry_loop send [0, 1, 2] with
  | .ok (n, s) => .ok ⟨n, s, true, false, false⟩
  | .error (n, s) =>
    match (if errSend then Except.ok () else Except.error ()) with
    | .ok () => .ok ⟨n, s, false, true, true⟩
    | .error () => .ok ⟨n, s, false, true, false⟩

/-! ## Claims -/

/-- Claim C1, as stated, is false: with `now` exactly at the target slot
(Wednesday 12:46:00 with `now = 218760`), the computed next-fire instant is
`now - 60` seconds, which is not strictly later than `now`.  The source sets
the first run one minute before the target slot
(bot.py line 524, `- datetime.timedelta(minutes=1)`). -/
theorem C1_counterexample :
    next_fire 218760 2 12 46 = 218700 ∧
      ¬ ((218760 : Int) < next_fire 218760 2 12 46) := by
  decide

/-- Claim C1 (amended): for every valid schedule entry and every current
instant, the next-fire instant computed when arming the trigger is at least
one minute before `now` (the code deliberately arms the trigger one minute
before the target slot) and strictly less than 7 days after `now`. -/
theorem C1_next_fire_window (now : Nat) (day hours minutes : Int)
    (hd0 : 0 ≤ day) (hd1 : day ≤ 6) (hh0 : 0 ≤ hours) (hh1 : hours ≤ 23)
    (hm0 : 0 ≤ minutes) (hm1 : minutes ≤ 59) :
    (now : Int) - 60 ≤ next_fire now day hours minutes ∧
      next_fire now day hours minutes < (now : Int) + 7 * 86400 := by
  have h1 : ((now % 86400 : Nat) : Int) < 86400 := by
    exact_mod_cast Nat.mod_lt _ (by norm_num)
  have h2 : (0 : Int) ≤ ((now % 86400 : Nat) : Int) := Int.natCast_nonneg _
  have h3 : (0 : Int) ≤ (day - ((now / 86400 % 7 : Nat) : Int)) % 7 :=
    Int.emod_nonneg _ (by norm_num)
  have h4 : (day - ((now / 86400 % 7 : Nat) : Int)) % 7 < 7 :=
    Int.emod_lt_of_pos _ (by norm_num)
  simp only [next_fire]
  split_ifs with hc <;> omega

/-- Witness for `C1_next_fire_window` at `now = 218760`, entry Wednesday
12:46. -/
theorem C1_next_fire_window_witness :
    (218760 : Int) - 60 ≤ next_fire 218760 2 12 46 ∧
      next_fire 218760 2 12 46 < (218760 : Int) + 7 * 86400 :=
  C1_next_fire_window 218760 2 12 46 (by norm_num) (by norm_num) (by norm_num)
    (by norm_num) (by norm_num) (by norm_num)

/-- Claim C3, as stated, is false: at `now = 32400` (Monday 09:00:00,
seconds zero) an entry for Monday 09:00 gets next-fire `now - 60`, not
`now + 7` days: the source treats the exact slot as not yet passed
(`now > target_time` is strict, bot.py line 518) and then subtracts one
minute (line 524). -/
theorem C3_counterexample :
    next_fire 32400 0 9 0 = 32340 ∧
      (next_fire 32400 0 9 0 ≠ (32400 : Int) + 7 * 86400) := by
  decide

/-- Claim C3 (amended): if the current instant (seconds of day equal to the
target hour and minute, target weekday) is exactly the target slot, the
computed next-fire instant is `now` minus one minute — neither `now` nor
`now + 7` days. -/
theorem C3_exact_slot (now : Nat) (day hours minutes : Int)
    (hw : ((now / 86400 % 7 : Nat) : Int) = day)
    (hs : ((now % 86400 : Nat) : Int) = hours * 3600 + minutes * 60) :
    next_fire now day hours minutes = (now : Int) - 60 := by
  simp only [next_fire]
  split_ifs with hc <;> omega

/-- Witness for `C3_exact_slot` at `now = 32400` (Monday 09:00:00), entry
Monday 09:00. -/
theorem C3_exact_slot_witness :
    next_fire 32400 0 9 0 = (32400 : Int) - 60 :=
  C3_exact_slot 32400 0 9 0 (by decide) (by decide)

/-- Claim C2, as stated, is false: with chat 1 holding the entry
(day 2, 12:46, thread 5), a request to add (day 2, 12:46, no thread) has no
stored entry with identical (day, hour, minute, thread_id), yet the add
fails as a duplicate and appends nothing — the duplicate check
(bot.py lines 216-217, 928-929) ignores `thread_id`. -/
theorem C2_counterexample :
    (¬ ∃ e ∈ ([⟨2, 12, 46, some 5⟩] : List Entry),
        e.day = 2 ∧ e.hours = 12 ∧ e.minutes = 46 ∧ e.thread_id = none) ∧
    add_schedule_core [(1, [⟨2, 12, 46, some 5⟩])] 1 2 12 46 none =
      ([(1, [⟨2, 12, 46, some 5⟩])], false) := by
  decide

/-- Claim C2 (amended): the add fails as a duplicate iff the chat already
has an entry with the same (day, hour, minute) — `thread_id` is not part of
the comparison; on failure the persisted store is unchanged, on success
exactly the new entry is appended to the list of the chat, and adding the same
request again then fails without duplicating storage. -/
theorem C2_add_duplicate (st : Store) (chat : Int) (day hours minutes : Int)
    (thread_id : Option Int) (hd0 : 0 ≤ day) (hd1 : day ≤ 6)
    (hh0 : 0 ≤ hours) (hh1 : hours ≤ 23) (hm0 : 0 ≤ minutes)
    (hm1 : minutes ≤ 59) :
    ((add_schedule_core st chat day hours minutes thread_id).2 = false ↔
      ∃ e ∈ (dictGet st chat).getD [],
        e.day = day ∧ e.hours = hours ∧ e.minutes = minutes) ∧
    ((add_schedule_core st chat day hours minutes thread_id).2 = false →
      (add_schedule_core st chat day hours minutes thread_id).1 = st) ∧
    ((add_schedule_core st chat day hours minutes thread_id).2 = true →
      (add_schedule_core st chat day hours minutes thread_id).1 =
        dictSet st chat ((dictGet st chat).getD [] ++
          [⟨day, hours, minutes, thread_id⟩])) ∧
    ((add_schedule_core st chat day hours minutes thread_id).2 = true →
      add_schedule_core
          (add_schedule_core st chat day hours minutes thread_id).1
          chat day hours minutes thread_id =
        ((add_schedule_core st chat day hours minutes thread_id).1, false)) := by
  by_cases h : ((dictGet st chat).getD []).any
      (fun e => e.day == day && e.hours == hours && e.minutes == minutes) = true
  · have hx : ∃ e ∈ (dictGet st chat).getD [],
        e.day = day ∧ e.hours = hours ∧ e.minutes = minutes := by
      simpa [List.any_eq_true, and_assoc] using h
    simp [add_schedule_core, h, hx]
  · have hx : ¬ ∃ e ∈ (dictGet st chat).getD [],
        e.day = day ∧ e.hours = hours ∧ e.minutes = minutes := by
      intro hc
      exact h (by simpa [List.any_eq_true, and_assoc] using hc)
    simp only [add_schedule_core, h, if_false, if_neg]
    refine ⟨by simpa using hx, by simp, by simp, ?_⟩
    intro _
    simp [dictGet_dictSet_self, List.any_append]

/-- Witness for `C2_add_duplicate` on an empty store with entry Wednesday
12:46. -/
theorem C2_add_duplicate_witness :
    (((add_schedule_core [] 1 2 12 46 none).2 = false ↔
      ∃ e ∈ (dictGet [] 1).getD [],
        e.day = 2 ∧ e.hours = 12 ∧ e.minutes = 46) ∧
    ((add_schedule_core [] 1 2 12 46 none).2 = false →
      (add_schedule_core [] 1 2 12 46 none).1 = []) ∧
    ((add_schedule_core [] 1 2 12 46 none).2 = true →
      (add_schedule_core [] 1 2 12 46 none).1 =
        dictSet [] 1 ((dictGet [] 1).getD [] ++ [⟨2, 12, 46, none⟩])) ∧
    ((add_schedule_core [] 1 2 12 46 none).2 = true →
      add_schedule_core (add_schedule_core [] 1 2 12 46 none).1 1 2 12 46 none =
        ((add_schedule_core [] 1 2 12 46 none).1, false))) :=
  C2_add_duplicate [] 1 2 12 46 none (by norm_num) (by norm_num) (by norm_num)
    (by norm_num) (by norm_num) (by norm_num)

/-- Claim C4, as stated, is false: with chat 7 holding two identical entries
(reachable through the persistence file, which `load_schedules` does not
deduplicate), a matching delete removes both, leaving the empty list, not
just the first match — the loop at bot.py lines 1051-1059 (and 384-394)
keeps only non-matching entries. -/
theorem C4_counterexample :
    delete_schedule_direct [(7, [⟨2, 12, 46, none⟩, ⟨2, 12, 46, none⟩])] []
        7 2 12 46 none =
      ([(7, [])], [], true) ∧
    ([(7, ([] : List Entry))] : Store) ≠ [(7, [⟨2, 12, 46, none⟩])] := by
  decide

/-- Claim C4 (amended): `delete_schedule_direct` removes every entry of the
chat matching (day, hour, minute, thread_id) — not only the first — and
persists the result; it reports found iff some entry matched; other chats
are untouched; when the chat has entries, every job whose context matches
the request is cancelled, and with no matching entry it reports
NotFound. -/
theorem C4_delete_removes_all (st : Store) (jobs : List Job) (chat : Int)
    (day hours minutes : Int) (thread_id : Option Int) :
    ((delete_schedule_direct st jobs chat day hours minutes thread_id).2.2 = true ↔
      ∃ e ∈ (dictGet st chat).getD [],
        e.day = day ∧ e.hours = hours ∧ e.minutes = minutes ∧
          e.thread_id = thread_id) ∧
    dictGet (delete_schedule_direct st jobs chat day hours minutes thread_id).1
        chat =
      (dictGet st chat).map (fun lst => lst.filter (fun e =>
        !(e.day == day && e.hours == hours && e.minutes == minutes &&
          e.thread_id == thread_id))) ∧
    (∀ c, c ≠ chat →
      dictGet (delete_schedule_direct st jobs chat day hours minutes thread_id).1
          c = dictGet st c) ∧
    (delete_schedule_direct st jobs chat day hours minutes thread_id).2.1 =
      (match dictGet st chat with
       | none => jobs
       | some _ => jobs.filter (fun j =>
           !(j.ctx.user_id == chat && j.ctx.day == day &&
             j.ctx.hours == hours && j.ctx.minutes == minutes &&
             j.ctx.thread_id == thread_id))) := by
  cases hg : dictGet st chat with
  | none => simp [delete_schedule_direct, hg]
  | some lst =>
    refine ⟨?_, ?_, ?_, ?_⟩
    · simp [delete_schedule_direct, hg, List.any_eq_true, and_assoc]
    · simp [delete_schedule_direct, hg, dictGet_dictSet_self]
    · intro c hc
      simp only [delete_schedule_direct, hg]
      exact dictGet_dictSet_ne st chat c _ (Ne.symm hc)
    · simp [delete_schedule_direct, hg]

/-- Witness for `C4_delete_removes_all` on the store with chat 7 holding one
entry for Wednesday 12:46. -/
theorem C4_delete_removes_all_witness :
    ((delete_schedule_direct [(7, [⟨2, 12, 46, none⟩])] [] 7 2 12 46 none).2.2
        = true ↔
      ∃ e ∈ (dictGet [(7, [⟨2, 12, 46, none⟩])] 7).getD [],
        e.day = 2 ∧ e.hours = 12 ∧ e.minutes = 46 ∧ e.thread_id = none) ∧
    dictGet (delete_schedule_direct [(7, [⟨2, 12, 46, none⟩])] []
        7 2 12 46 none).1 7 =
      (dictGet [(7, [⟨2, 12, 46, none⟩])] 7).map (fun lst => lst.filter (fun e =>
        !(e.day == 2 && e.hours == 12 && e.minutes == 46 &&
          e.thread_id == none))) ∧
    (∀ c, c ≠ 7 →
      dictGet (delete_schedule_direct [(7, [⟨2, 12, 46, none⟩])] []
          7 2 12 46 none).1 c = dictGet [(7, [⟨2, 12, 46, none⟩])] c) ∧
    (delete_schedule_direct [(7, [⟨2, 12, 46, none⟩])] [] 7 2 12 46 none).2.1 =
      (match dictGet [(7, [⟨2, 12, 46, none⟩])] 7 with
       | none => ([] : List Job)
       | some _ => [].filter (fun j =>
           !(j.ctx.user_id == 7 && j.ctx.day == 2 &&
             j.ctx.hours == 12 && j.ctx.minutes == 46 &&
             j.ctx.thread_id == none))) :=
  C4_delete_removes_all [(7, [⟨2, 12, 46, none⟩])] [] 7 2 12 46 none

/-- Claim C6, as stated, is false: chat 9 stores only (day 3, 10:30,
thread 77); a delete request for (day 3, 10:30, no thread) matches no stored
entry on the full (day, hour, minute, thread_id) tuple, yet
`process_schedule_delete` removes the entry and reports it deleted — its
match (bot.py lines 386-388) ignores `thread_id`. -/
theorem C6_counterexample :
    (¬ ∃ e ∈ ([⟨3, 10, 30, some 77⟩] : List Entry),
        e.day = 3 ∧ e.hours = 10 ∧ e.minutes = 30 ∧
          e.thread_id = (none : Option Int)) ∧
    process_schedule_delete [(9, [⟨3, 10, 30, some 77⟩])] [] 9 3 10 30 =
      ([(9, [])], [], true) ∧
    ([(9, ([] : List Entry))] : Store) ≠ [(9, [⟨3, 10, 30, some 77⟩])] := by
  decide

/-- Claim C6 (amended): a delete request whose (day, hour, minute) — the
fields `process_schedule_delete` actually compares — matches no stored entry
of the chat reports not-found and leaves the schedule store value
unchanged. -/
theorem C6_delete_not_found (st : Store) (jobs : List Job) (chat : Int)
    (day hours minutes : Int)
    (h : ∀ e ∈ (dictGet st chat).getD [],
      ¬(e.day = day ∧ e.hours = hours ∧ e.minutes = minutes)) :
    (process_schedule_delete st jobs chat day hours minutes).1 = st ∧
    (process_schedule_delete st jobs chat day hours minutes).2.2 = false := by
  cases hg : dictGet st chat with
  | none => simp [process_schedule_delete, hg]
  | some lst =>
    have hf : ∀ e ∈ lst,
        (e.day == day && e.hours == hours && e.minutes == minutes) = false := by
      intro e he
      have hne := h e (by simp [hg, he])
      rw [Bool.eq_false_iff]
      intro hc
      exact hne (by simpa [and_assoc] using hc)
    have hfilter : lst.filter (fun e =>
        !(e.day == day && e.hours == hours && e.minutes == minutes)) = lst := by
      apply List.filter_eq_self.mpr
      intro e he
      simp [hf e he]
    have hany : lst.any
        (fun e => e.day == day && e.hours == hours && e.minutes == minutes)
          = false := by
      apply List.any_eq_false.mpr
      intro e he
      simp [hf e he]
    simp only [process_schedule_delete, hg]
    refine ⟨?_, hany⟩
    rw [hfilter]
    exact dictSet_eq_self st chat lst hg

/-- Witness for `C6_delete_not_found`: deleting (day 0, 11:00) from a chat
that only stores (day 3, 10:30, thread 77). -/
theorem C6_delete_not_found_witness :
    (process_schedule_delete [(9, [⟨3, 10, 30, some 77⟩])] [] 9 0 11 0).1 =
      [(9, [⟨3, 10, 30, some 77⟩])] ∧
    (process_schedule_delete [(9, [⟨3, 10, 30, some 77⟩])] [] 9 0 11 0).2.2 =
      false :=
  C6_delete_not_found [(9, [⟨3, 10, 30, some 77⟩])] [] 9 0 11 0 (by decide)

/-- Claim C5, as stated, is false: when the persistence file exists but is
not valid JSON, `load_schedules` propagates the `json.load` exception —
there is no try/except around it (bot.py lines 73-81) — instead of falling
back to an empty store. -/
theorem C5_counterexample :
    load_schedules FileState.corrupt = Except.error () ∧
      load_schedules FileState.corrupt ≠ Except.ok ([] : Store) :=
  ⟨rfl, fun h => Except.noConfusion h⟩

/-- Claim C5 (amended): `load_schedules` falls back to the empty store only
when the persistence file does not exist; a file that exists but cannot be
parsed makes it raise. -/
theorem C5_load_behaviour :
    load_schedules FileState.absent = Except.ok ([] : Store) ∧
      load_schedules FileState.corrupt = Except.error () :=
  ⟨rfl, rfl⟩

/-- Claim C7: `setup_schedules` is idempotent — it first drops every queued
job, then arms exactly one job per persisted entry, so a second run over the
same persisted store (and the queue the first run produced) yields the very
same armed jobs. -/
theorem C7_setup_idempotent (file : FileState) (jobs : List Job) (now : Nat)
    (out : List Job) (h : setup_schedules file jobs now = .ok out) :
    setup_schedules file out now = .ok out := by
  unfold setup_schedules at h ⊢
  cases hl : load_schedules file with
  | error e => rw [hl] at h; simp at h
  | ok st => rw [hl] at h; simpa using h

/-- Witness for `C7_setup_idempotent`: rerunning on the queue produced by a
first run over the one-entry store for chat 555. -/
theorem C7_setup_idempotent_witness :
    setup_schedules (save_schedules [(555, [⟨2, 12, 46, none⟩])])
        [⟨⟨555, 2, 12, 46, none⟩, 218700, 604800⟩] 0 =
      .ok [⟨⟨555, 2, 12, 46, none⟩, 218700, 604800⟩] :=
  C7_setup_idempotent (save_schedules [(555, [⟨2, 12, 46, none⟩])]) [] 0
    [⟨⟨555, 2, 12, 46, none⟩, 218700, 604800⟩] (by rfl)

/-- Claim C8: when the weekly trigger fires, the message send is attempted
at most 3 times with one fixed 2-second delay between consecutive attempts
(`sleeps + 1 = attempts`); if all 3 attempts fail, the callback reports a
user-visible error message (it invokes the messaging primitive on the error
text), and in every case the callback returns normally — no exception
escapes, so the weekly job stays armed. -/
theorem C8_send_retry (send : Nat → Bool) (errSend : Bool) :
    ∃ t : SendTrace, send_meet_link send errSend = .ok t ∧
      t.attempts ≤ 3 ∧ t.sleeps + 1 = t.attempts ∧
      (t.linkSent = false → t.attempts = 3 ∧ t.errorAttempted = true) ∧
      (t.linkSent = true → t.errorAttempted = false) := by
  cases h0 : send 0 <;> cases h1 : send 1 <;> cases h2 : send 2 <;>
    cases he : errSend <;>
      simp [send_meet_link, retry_loop, h0, h1, h2]

/-- Witness for `C8_send_retry` with every attempt failing and the error
message send failing too. -/
theorem C8_send_retry_witness :
    ∃ t : SendTrace, send_meet_link (fun _ => false) false = .ok t ∧
      t.attempts ≤ 3 ∧ t.sleeps + 1 = t.attempts ∧
      (t.linkSent = false → t.attempts = 3 ∧ t.errorAttempted = true) ∧
      (t.linkSent = true → t.errorAttempted = false) :=
  C8_send_retry (fun _ => false) false

/-- Claim C9: an add request whose text fails validation — unknown day name
(`badDay`) or malformed/out-of-range time (`badTime`) — reports the
validation error and mutates neither the schedule store nor the job
queue. -/
theorem C9_validation_no_mutation (text : List Char) (chat : Int)
    (thread_id : Option Int) (st : Store) (jobs : List Job) (now : Nat)
    (e : AddOutcome) (he : e = .badDay ∨ e = .badTime)
    (hp : parse_day_time text = .error e) :
    process_schedule_add text chat thread_id st jobs now = (st, jobs, e) := by
  simp [process_schedule_add, hp]

/-- Witness for `C9_validation_no_mutation` on the out-of-range time
request "среда 25:00". -/
theorem C9_validation_no_mutation_witness :
    ((AddOutcome.badTime = .badDay ∨ AddOutcome.badTime = .badTime) ∧
      parse_day_time ("среда 25:00".data) = .error .badTime) ∧
    process_schedule_add ("среда 25:00".data) 1 none
        [(1, [⟨0, 9, 0, none⟩])] [] 0 =
      ([(1, [⟨0, 9, 0, none⟩])], [], .badTime) :=
  ⟨⟨Or.inr rfl, rfl⟩,
    C9_validation_no_mutation ("среда 25:00".data) 1 none
      [(1, [⟨0, 9, 0, none⟩])] [] 0 .badTime (Or.inr rfl) rfl⟩

/-- Claim C10: saving any store whose chat ids are distinct integers with
`save_schedules` and loading it back with `load_schedules` reconstructs
exactly the original store — the decimal string keys written by `json.dump`
are converted back to integer chat ids. -/
theorem C10_save_load_roundtrip (st : Store)
    (hkeys : (st.map Prod.fst).Nodup) :
    load_schedules (save_schedules st) = .ok st := by
  simp [save_schedules, load_schedules, decode_store_encode_store]

/-- Witness for `C10_save_load_roundtrip` on a two-chat store (one negative
group chat id, one entry with a thread). -/
theorem C10_save_load_roundtrip_witness :
    ((([(555, [⟨2, 12, 46, none⟩]), (-1001, [⟨0, 9, 0, some 17⟩])] : Store).map
        Prod.fst).Nodup) ∧
    load_schedules (save_schedules
        [(555, [⟨2, 12, 46, none⟩]), (-1001, [⟨0, 9, 0, some 17⟩])]) =
      .ok [(555, [⟨2, 12, 46, none⟩]), (-1001, [⟨0, 9, 0, some 17⟩])] :=
  ⟨by decide, C10_save_load_roundtrip _ (by decide)⟩

end Bot
